import Mathlib

/-!
Shallow embedding of the tardis-node Binance normalization mappers and the
mapper registry, together with theorems settling the specification claims.

Conventions of the embedding:
* TypeScript numbers that carry sequence ids / timestamps are modelled as `Int`;
  the decoding of numeric strings in raw book levels (`Number(level[0])`) is
  abstracted: a raw `BinanceBookLevel` is the pair of already-decoded numbers.
* Mutable per-mapper state (`symbolToDepthInfoMapping`) is threaded explicitly
  as an association list `SymbolMap`.
* A generator (`*map`) becomes a function returning the list of yielded events,
  the post-call state, and an optional error: a thrown `Error` is modelled as
  `error = some message`, with the events yielded before the throw and the
  mutations performed before the throw preserved, exactly as in the source.
* The non-null assertions `!` in `mapBookDepthUpdate` are modelled as a
  TypeError-style error result when the asserted value is in fact absent.
-/

/-- Output side of a book level after numeric decoding (`mapBookLevel`). -/
structure BookLevelOut where
  price : Int
  amount : Int
deriving Repr, DecidableEq

/-- Raw wire book level `[price, amount]`, numeric decoding abstracted. -/
abbrev BinanceBookLevel := Int × Int

/-- Embeds `BinanceBookChangeMapper.mapBookLevel`. -/
def mapBookLevel (level : BinanceBookLevel) : BookLevelOut :=
  { price := level.1, amount := level.2 }

/-- Embeds the `BinanceDepthData` wire record. -/
structure BinanceDepthData where
  E : Int
  s : String
  U : Int
  u : Int
  b : List BinanceBookLevel
  a : List BinanceBookLevel
deriving Repr, DecidableEq

/-- Embeds the `BinanceDepthSnapshotData` wire record. -/
structure BinanceDepthSnapshotData where
  lastUpdateId : Int
  bids : List BinanceBookLevel
  asks : List BinanceBookLevel
deriving Repr, DecidableEq

/-- Payload of a depth message: the source discriminates the union by
`message.data.lastUpdateId !== undefined`. -/
inductive BinanceDepthMessageData
  | snapshot (d : BinanceDepthSnapshotData)
  | update (d : BinanceDepthData)
deriving Repr, DecidableEq

/-- Message handed to `BinanceBookChangeMapper.map` (stream is present there). -/
structure DepthMessage where
  stream : String
  data : BinanceDepthMessageData
deriving Repr, DecidableEq

/-- Embeds the canonical `BookChange` event. -/
structure BookChange where
  symbol : String
  exchange : String
  isSnapshot : Bool
  bids : List BookLevelOut
  asks : List BookLevelOut
  timestamp : Int
  localTimestamp : Int
deriving Repr, DecidableEq

/-- Embeds the `CircularBuffer` class: a JS array `_buffer` plus a cursor. -/
structure CircularBuffer (T : Type) where
  buffer : List T
  index : Nat
  bufferSize : Nat
deriving Repr, DecidableEq

/-- Embeds `new CircularBuffer(bufferSize)`. -/
def CircularBuffer.new (T : Type) (bufferSize : Nat) : CircularBuffer T :=
  { buffer := [], index := 0, bufferSize := bufferSize }

/-- Embeds `CircularBuffer.append`: writes at the cursor (a JS assignment at
`_buffer[_index]` pushes when `_index` equals the array length) and returns the
popped value when the buffer was full. -/
def CircularBuffer.append {T : Type} (cb : CircularBuffer T) (value : T) :
    CircularBuffer T × Option T :=
  let isFull := cb.buffer.length = cb.bufferSize
  let poppedValue := if isFull then cb.buffer.get? cb.index else none
  let buffer' :=
    if cb.index < cb.buffer.length then cb.buffer.set cb.index value
    else cb.buffer ++ [value]
  (⟨buffer', (cb.index + 1) % cb.bufferSize, cb.bufferSize⟩, poppedValue)

/-- Embeds the `items()` generator: yields `_buffer[(_index + i) % _buffer.length]`
for `i` from `0` to `_buffer.length - 1`. -/
def CircularBuffer.items {T : Type} (cb : CircularBuffer T) : List T :=
  (List.range cb.buffer.length).filterMap
    (fun i => cb.buffer.get? ((cb.index + i) % cb.buffer.length))

/-- Embeds the `count` getter. -/
def CircularBuffer.count {T : Type} (cb : CircularBuffer T) : Nat :=
  cb.buffer.length

/-- Embeds `CircularBuffer.clear`. -/
def CircularBuffer.clear {T : Type} (cb : CircularBuffer T) : CircularBuffer T :=
  { buffer := [], index := 0, bufferSize := cb.bufferSize }

/-- Embeds the `LocalDepthInfo` per-symbol reconstruction record. -/
structure LocalDepthInfo where
  bufferedUpdates : CircularBuffer BinanceDepthData
  snapshotProcessed : Bool
  lastUpdateId : Option Int
  validatedFirstUpdate : Bool
deriving Repr, DecidableEq

/-- Fresh per-symbol record as created lazily by `map`. -/
def LocalDepthInfo.initial : LocalDepthInfo :=
  { bufferedUpdates := CircularBuffer.new BinanceDepthData 200
    snapshotProcessed := false
    lastUpdateId := none
    validatedFirstUpdate := false }

/-- Embeds the mutable `symbolToDepthInfoMapping` object as an association list. -/
abbrev SymbolMap := List (String × LocalDepthInfo)

/-- Property-style lookup `symbolToDepthInfoMapping[symbol]`. -/
def lookupSymbol (m : SymbolMap) (s : String) : Option LocalDepthInfo :=
  (m.find? (fun p => p.1 == s)).map (fun p => p.2)

/-- Property-style assignment `symbolToDepthInfoMapping[symbol] = info`. -/
def setSymbol (m : SymbolMap) (s : String) (info : LocalDepthInfo) : SymbolMap :=
  match m with
  | [] => [(s, info)]
  | (k, v) :: rest => if k == s then (s, info) :: rest else (k, v) :: setSymbol rest s info

/-- Embeds `message.stream.split('@')[0].toUpperCase()`: the characters before
the first `@` (the whole string when none), uppercased. -/
def symbolFromStream (stream : String) : String :=
  String.mk ((stream.data.takeWhile (fun c => c ≠ '@')).map Char.toUpper)

/-- Renders a raw depth update the way `JSON.stringify` does, fields in
declaration order of `BinanceDepthData`. -/
def jsonStringifyLevel (l : BinanceBookLevel) : String :=
  "[\"" ++ toString l.1 ++ "\",\"" ++ toString l.2 ++ "\"]"

/-- Renders a list of raw levels as a JSON array. -/
def jsonStringifyLevels (ls : List BinanceBookLevel) : String :=
  "[" ++ String.intercalate "," (ls.map jsonStringifyLevel) ++ "]"

/-- Renders the whole update record as JSON text. -/
def jsonStringifyDepthData (u : BinanceDepthData) : String :=
  "\x7b\"E\":" ++ toString u.E ++ ",\"s\":\"" ++ u.s ++ "\",\"U\":" ++ toString u.U ++
    ",\"u\":" ++ toString u.u ++ ",\"b\":" ++ jsonStringifyLevels u.b ++
    ",\"a\":" ++ jsonStringifyLevels u.a ++ "\x7d"

/-- Message built at the overlap-validation failure site of
`BinanceBookChangeMapper.mapBookDepthUpdate`. -/
def overlapErrorMessage (exchange : String) (u : BinanceDepthData) (lastUpdateId : Int) : String :=
  "Book depth snaphot has no overlap with first update, update " ++
    jsonStringifyDepthData u ++ ", lastUpdateId: " ++ toString lastUpdateId ++
    ", exchange " ++ exchange

/-- Book change built at the tail of `mapBookDepthUpdate` for a depth update. -/
def depthUpdateBookChange (exchange : String) (u : BinanceDepthData) (localTimestamp : Int) :
    BookChange :=
  { symbol := u.s
    exchange := exchange
    isSnapshot := false
    bids := u.b.map mapBookLevel
    asks := u.a.map mapBookLevel
    timestamp := u.E
    localTimestamp := localTimestamp }

/-- Embeds `BinanceBookChangeMapper.mapBookDepthUpdate`. Returns the optional
yielded book change, the post-call symbol map, and the optional thrown error. -/
def BinanceBookChangeMapper.mapBookDepthUpdate (exchange : String)
    (ignoreBookSnapshotOverlapError : Bool) (m : SymbolMap) (u : BinanceDepthData)
    (localTimestamp : Int) : Option BookChange × SymbolMap × Option String :=
  match lookupSymbol m u.s with
  | none => (none, m, some "TypeError: depth context is undefined")
  | some depthContext =>
    match depthContext.lastUpdateId with
    | none => (none, m, some "TypeError: lastUpdateId is undefined")
    | some lastUpdateId =>
      -- Drop any event where u is <= lastUpdateId in the snapshot
      if u.u ≤ lastUpdateId then (none, m, none)
      else if depthContext.validatedFirstUpdate then
        (some (depthUpdateBookChange exchange u localTimestamp), m, none)
      else
        -- The first processed event should have U <= lastUpdateId+1 AND u >= lastUpdateId+1
        let bookSnapshotIsEmpty := lastUpdateId = -1
        if (u.U ≤ lastUpdateId + 1 ∧ u.u ≥ lastUpdateId + 1) ∨ bookSnapshotIsEmpty then
          (some (depthUpdateBookChange exchange u localTimestamp),
            setSymbol m u.s { depthContext with validatedFirstUpdate := true }, none)
        else if ignoreBookSnapshotOverlapError then
          -- tolerant mode: debug-log the message, mark validated, emit anyway
          (some (depthUpdateBookChange exchange u localTimestamp),
            setSymbol m u.s { depthContext with validatedFirstUpdate := true }, none)
        else
          (none, m, some (overlapErrorMessage exchange u lastUpdateId))

/-- Result of one call of the generator `map`: events yielded (in order), the
post-call state, the optional thrown error. -/
structure MapResult where
  events : List BookChange
  state : SymbolMap
  error : Option String
deriving Repr, DecidableEq

/-- Lazy creation of the per-symbol record performed at the top of `map`. -/
def getOrCreateInfo (m : SymbolMap) (symbol : String) : LocalDepthInfo × SymbolMap :=
  match lookupSymbol m symbol with
  | none => (LocalDepthInfo.initial, setSymbol m symbol LocalDepthInfo.initial)
  | some info => (info, m)

/-- Embeds the replay loop over `symbolDepthInfo.bufferedUpdates.items()`:
stops at the first thrown error, keeping the events yielded before it. -/
def replayBufferedUpdates (exchange : String) (ignoreErr : Bool)
    (updates : List BinanceDepthData) (m : SymbolMap) (localTimestamp : Int) :
    List BookChange × SymbolMap × Option String :=
  match updates with
  | [] => ([], m, none)
  | u :: rest =>
    match BinanceBookChangeMapper.mapBookDepthUpdate exchange ignoreErr m u localTimestamp with
    | (bc, m', some e) => (bc.toList, m', some e)
    | (bc, m', none) =>
      let r := replayBufferedUpdates exchange ignoreErr rest m' localTimestamp
      (bc.toList ++ r.1, r.2.1, r.2.2)

/-- Embeds the generator `BinanceBookChangeMapper.map`. -/
def BinanceBookChangeMapper.map (exchange : String) (ignoreErr : Bool) (m0 : SymbolMap)
    (message : DepthMessage) (localTimestamp : Int) : MapResult :=
  let symbol := symbolFromStream message.stream
  let im := getOrCreateInfo m0 symbol
  let symbolDepthInfo := im.1
  let m := im.2
  let snapshotAlreadyProcessed := symbolDepthInfo.snapshotProcessed
  match message.data with
  | .snapshot d =>
    -- if we've already received 'manual' snapshot, ignore if there is another one
    if snapshotAlreadyProcessed then { events := [], state := m, error := none }
    else
      let bookChange : BookChange :=
        { symbol := symbol
          exchange := exchange
          isSnapshot := true
          bids := d.bids.map mapBookLevel
          asks := d.asks.map mapBookLevel
          timestamp := localTimestamp
          localTimestamp := localTimestamp }
      let info' := { symbolDepthInfo with
        lastUpdateId := some d.lastUpdateId, snapshotProcessed := true }
      let m1 := setSymbol m symbol info'
      let r := replayBufferedUpdates exchange ignoreErr
        symbolDepthInfo.bufferedUpdates.items m1 localTimestamp
      match r.2.2 with
      | some e => { events := bookChange :: r.1, state := r.2.1, error := some e }
      | none =>
        match lookupSymbol r.2.1 symbol with
        | none => { events := bookChange :: r.1, state := r.2.1
                    error := some "TypeError: depth context is undefined" }
        | some info2 =>
          { events := bookChange :: r.1
            state := setSymbol r.2.1 symbol
              { info2 with bufferedUpdates := info2.bufferedUpdates.clear }
            error := none }
  | .update d =>
    if snapshotAlreadyProcessed then
      let r := BinanceBookChangeMapper.mapBookDepthUpdate exchange ignoreErr m d localTimestamp
      { events := r.1.toList, state := r.2.1, error := r.2.2 }
    else
      let info' := { symbolDepthInfo with
        bufferedUpdates := (symbolDepthInfo.bufferedUpdates.append d).1 }
      { events := [], state := setSymbol m symbol info', error := none }

/-- Feeds a list of messages through `map` in order, accumulating the yielded
events; processing stops at the first thrown error, as a throw escapes the
message-consuming loop. -/
def mapMessages (exchange : String) (ignoreErr : Bool) (m : SymbolMap)
    (messages : List DepthMessage) (localTimestamp : Int) : MapResult :=
  match messages with
  | [] => { events := [], state := m, error := none }
  | msg :: rest =>
    let r := BinanceBookChangeMapper.map exchange ignoreErr m msg localTimestamp
    match r.error with
    | some e => { events := r.events, state := r.state, error := some e }
    | none =>
      let r2 := mapMessages exchange ignoreErr r.state rest localTimestamp
      { events := r.events ++ r2.events, state := r2.state, error := r2.error }

/-- Identity of a mapper object returned by a registry factory: either the
module-level constant the factory closes over (the same object on every call),
or an object freshly allocated by `new` (a distinct allocation id per call). -/
inductive MapperRef
  | shared (moduleConstant : String)
  | fresh (className : String) (allocId : Nat)
deriving Repr, DecidableEq

/-- Embeds the `tradesMappers` registry object of `src/mappers/index.ts`:
each factory takes the next fresh allocation id and returns the mapper object
identity it produces. -/
def tradesMappers : List (String × (Nat → MapperRef)) :=
  [("bitmex", fun _ => .shared "bitmexTradesMapper"),
   ("binance", fun n => .fresh "BinanceTradesMapper" n),
   ("binance-us", fun n => .fresh "BinanceTradesMapper" n),
   ("binance-jersey", fun n => .fresh "BinanceTradesMapper" n),
   ("binance-futures", fun n => .fresh "BinanceTradesMapper" n),
   ("binance-dex", fun _ => .shared "binanceDexTradesMapper"),
   ("bitfinex", fun n => .fresh "BitfinexTradesMapper" n),
   ("bitfinex-derivatives", fun n => .fresh "BitfinexTradesMapper" n),
   ("bitfinex-alts", fun n => .fresh "BitfinexTradesMapper" n),
   ("bitflyer", fun _ => .shared "bitflyerTradesMapper"),
   ("bitstamp", fun _ => .shared "bitstampTradesMapper"),
   ("coinbase", fun _ => .shared "coinbaseTradesMapper"),
   ("cryptofacilities", fun _ => .shared "cryptofacilitiesTradesMapper"),
   ("deribit", fun _ => .shared "deribitTradesMapper"),
   ("ftx", fun _ => .shared "ftxTradesMapper"),
   ("gemini", fun _ => .shared "geminiTradesMapper"),
   ("kraken", fun _ => .shared "krakenTradesMapper"),
   ("okex", fun n => .fresh "OkexTradesMapper" n),
   ("okex-futures", fun n => .fresh "OkexTradesMapper" n),
   ("okex-swap", fun n => .fresh "OkexTradesMapper" n),
   ("okex-options", fun n => .fresh "OkexTradesMapper" n),
   ("huobi", fun n => .fresh "HuobiTradesMapper" n),
   ("huobi-dm", fun n => .fresh "HuobiTradesMapper" n),
   ("bybit", fun n => .fresh "BybitTradesMapper" n),
   ("okcoin", fun n => .fresh "OkexTradesMapper" n),
   ("hitbtc", fun _ => .shared "hitBtcTradesMapper")]

/-- Embeds the `bookChangeMappers` registry object (the book-change factories
additionally receive `localTimestamp`, which configures strictness but does not
affect which object is returned, so it is dropped here). -/
def bookChangeMappers : List (String × (Nat → MapperRef)) :=
  [("bitmex", fun n => .fresh "BitmexBookChangeMapper" n),
   ("binance", fun n => .fresh "BinanceBookChangeMapper" n),
   ("binance-us", fun n => .fresh "BinanceBookChangeMapper" n),
   ("binance-jersey", fun n => .fresh "BinanceBookChangeMapper" n),
   ("binance-futures", fun n => .fresh "BinanceFuturesBookChangeMapper" n),
   ("binance-dex", fun _ => .shared "binanceDexBookChangeMapper"),
   ("bitfinex", fun n => .fresh "BitfinexBookChangeMapper" n),
   ("bitfinex-derivatives", fun n => .fresh "BitfinexBookChangeMapper" n),
   ("bitfinex-alts", fun n => .fresh "BitfinexBookChangeMapper" n),
   ("bitflyer", fun _ => .shared "bitflyerBookChangeMapper"),
   ("bitstamp", fun n => .fresh "BitstampBookChangeMapper" n),
   ("coinbase", fun _ => .shared "coinbaseBookChangMapper"),
   ("cryptofacilities", fun _ => .shared "cryptofacilitiesBookChangeMapper"),
   ("deribit", fun _ => .shared "deribitBookChangeMapper"),
   ("ftx", fun _ => .shared "ftxBookChangeMapper"),
   ("gemini", fun _ => .shared "geminiBookChangeMapper"),
   ("kraken", fun _ => .shared "krakenBookChangeMapper"),
   ("okex", fun n => .fresh "OkexBookChangeMapper" n),
   ("okex-futures", fun n => .fresh "OkexBookChangeMapper" n),
   ("okex-swap", fun n => .fresh "OkexBookChangeMapper" n),
   ("okex-options", fun n => .fresh "OkexBookChangeMapper" n),
   ("huobi", fun n => .fresh "HuobiBookChangeMapper" n),
   ("huobi-dm", fun n => .fresh "HuobiBookChangeMapper" n),
   ("bybit", fun n => .fresh "BybitBookChangeMapper" n),
   ("okcoin", fun n => .fresh "OkexBookChangeMapper" n),
   ("hitbtc", fun _ => .shared "hitBtcBookChangeMapper")]

/-- Embeds the `derivativeTickersMappers` registry object. -/
def derivativeTickersMappers : List (String × (Nat → MapperRef)) :=
  [("bitmex", fun n => .fresh "BitmexDerivativeTickerMapper" n),
   ("binance-futures", fun n => .fresh "BinanceFuturesDerivativeTickerMapper" n),
   ("bitfinex-derivatives", fun n => .fresh "BitfinexDerivativeTickerMapper" n),
   ("cryptofacilities", fun n => .fresh "CryptofacilitiesDerivativeTickerMapper" n),
   ("deribit", fun n => .fresh "DeribitDerivativeTickerMapper" n),
   ("okex-futures", fun n => .fresh "OkexDerivativeTickerMapper" n),
   ("okex-swap", fun n => .fresh "OkexDerivativeTickerMapper" n),
   ("bybit", fun n => .fresh "BybitDerivativeTickerMapper" n)]

/-- Registry lookup `tradesMappers[exchange]`. -/
def lookupFactory (table : List (String × (Nat → MapperRef))) (exchange : String) :
    Option (Nat → MapperRef) :=
  (table.find? (fun p => p.1 == exchange)).map (fun p => p.2)

/-- Embeds `normalizeTrades`: throws a descriptive error when the exchange has
no registered trades mapper, otherwise invokes the factory. `n` is the fresh
allocation id consumed when the factory constructs a `new` object. -/
def normalizeTrades (exchange : String) (n : Nat) : Except String MapperRef :=
  match lookupFactory tradesMappers exchange with
  | none => .error ("normalizeTrades: " ++ exchange ++ " not supported")
  | some createTradesMapper => .ok (createTradesMapper n)

/-- Embeds `normalizeBookChanges`. -/
def normalizeBookChanges (exchange : String) (_localTimestamp : Int) (n : Nat) :
    Except String MapperRef :=
  match lookupFactory bookChangeMappers exchange with
  | none => .error ("normalizeBookChanges: " ++ exchange ++ " not supported")
  | some createBookChangesMapper => .ok (createBookChangesMapper n)

/-- Embeds `normalizeDerivativeTickers`. -/
def normalizeDerivativeTickers (exchange : String) (n : Nat) : Except String MapperRef :=
  match lookupFactory derivativeTickersMappers exchange with
  | none => .error ("normalizeDerivativeTickers: " ++ exchange ++ " not supported")
  | some createDerivativeTickerMapper => .ok (createDerivativeTickerMapper n)

/-- Raw message shape common to the three Binance mappers: only the presence of
the `stream` field matters to `canHandle`. -/
structure BinanceRawMessage where
  stream : Option String
deriving Repr, DecidableEq

/-- Embeds `BinanceTradesMapper.canHandle`. -/
def BinanceTradesMapper.canHandle (message : BinanceRawMessage) : Bool :=
  match message.stream with
  | none => false
  | some stream => stream.endsWith "@trade"

/-- Embeds `BinanceBookChangeMapper.canHandle`. -/
def BinanceBookChangeMapper.canHandle (message : BinanceRawMessage) : Bool :=
  match message.stream with
  | none => false
  | some stream => stream.containsSubstr "@depth"

/-- Embeds `BinanceFuturesDerivativeTickerMapper.canHandle`. -/
def BinanceFuturesDerivativeTickerMapper.canHandle (message : BinanceRawMessage) : Bool :=
  match message.stream with
  | none => false
  | some stream => stream.containsSubstr "@markPrice" || stream.endsWith "@ticker"

/-- Embeds the canonical `DerivativeTicker` event. Optional fields default to
unknown (`none`) rather than zero. -/
structure DerivativeTicker where
  symbol : String
  exchange : String
  fundingRate : Option Int
  markPrice : Option Int
  lastPrice : Option Int
  openInterest : Option Int
  timestamp : Option Int
  localTimestamp : Int
deriving Repr, DecidableEq

/-- Modelled from the spec: the `PendingTickerInfo` record of the missing
source file `src/mappers/mapper` (only its call sites are under `src/`),
following spec section 4.4: last-known field values plus per-field
"changed since last emission" flags. -/
structure PendingTickerInfo where
  symbol : String
  exchange : String
  fundingRate : Option Int
  markPrice : Option Int
  lastPrice : Option Int
  openInterest : Option Int
  timestamp : Option Int
  fundingRateChanged : Bool
  markPriceChanged : Bool
  lastPriceChanged : Bool
  timestampChanged : Bool
deriving Repr, DecidableEq

/-- Modelled from the spec: a fresh pending-ticker record; fields never set
remain unknown rather than defaulting to zero. -/
def PendingTickerInfo.initial (symbol exchange : String) : PendingTickerInfo :=
  { symbol := symbol, exchange := exchange
    fundingRate := none, markPrice := none, lastPrice := none
    openInterest := none, timestamp := none
    fundingRateChanged := false, markPriceChanged := false
    lastPriceChanged := false, timestampChanged := false }

/-- Modelled from the spec: `updateFundingRate` sets the value and marks the
field dirty only if the new value differs from the stored one. -/
def PendingTickerInfo.updateFundingRate (p : PendingTickerInfo) (v : Int) : PendingTickerInfo :=
  if p.fundingRate = some v then p
  else { p with fundingRate := some v, fundingRateChanged := true }

/-- Modelled from the spec: `updateMarkPrice`, same change discipline. -/
def PendingTickerInfo.updateMarkPrice (p : PendingTickerInfo) (v : Int) : PendingTickerInfo :=
  if p.markPrice = some v then p
  else { p with markPrice := some v, markPriceChanged := true }

/-- Modelled from the spec: `updateLastPrice`, same change discipline. -/
def PendingTickerInfo.updateLastPrice (p : PendingTickerInfo) (v : Int) : PendingTickerInfo :=
  if p.lastPrice = some v then p
  else { p with lastPrice := some v, lastPriceChanged := true }

/-- Modelled from the spec: `updateTimestamp`, same change discipline. -/
def PendingTickerInfo.updateTimestamp (p : PendingTickerInfo) (v : Int) : PendingTickerInfo :=
  if p.timestamp = some v then p
  else { p with timestamp := some v, timestampChanged := true }

/-- Modelled from the spec: `hasChanged()` reports whether any field is dirty
since the last snapshot extraction. -/
def PendingTickerInfo.hasChanged (p : PendingTickerInfo) : Bool :=
  p.fundingRateChanged || p.markPriceChanged || p.lastPriceChanged || p.timestampChanged

/-- Modelled from the spec: `getSnapshot(localTimestamp)` returns the ticker
built from current field values and clears all dirty flags. -/
def PendingTickerInfo.getSnapshot (p : PendingTickerInfo) (localTimestamp : Int) :
    DerivativeTicker × PendingTickerInfo :=
  ({ symbol := p.symbol, exchange := p.exchange
     fundingRate := p.fundingRate, markPrice := p.markPrice, lastPrice := p.lastPrice
     openInterest := p.openInterest, timestamp := p.timestamp
     localTimestamp := localTimestamp },
   { p with fundingRateChanged := false, markPriceChanged := false
            lastPriceChanged := false, timestampChanged := false })

/-- Modelled from the spec: the symbol-keyed store of `PendingTickerInfoHelper`. -/
abbrev TickerMap := List (String × PendingTickerInfo)

/-- Lookup in the pending-ticker store. -/
def lookupTicker (m : TickerMap) (s : String) : Option PendingTickerInfo :=
  (m.find? (fun p => p.1 == s)).map (fun p => p.2)

/-- Assignment in the pending-ticker store. -/
def setTicker (m : TickerMap) (s : String) (info : PendingTickerInfo) : TickerMap :=
  match m with
  | [] => [(s, info)]
  | (k, v) :: rest => if k == s then (s, info) :: rest else (k, v) :: setTicker rest s info

/-- Modelled from the spec: `getPendingTickerInfo(symbol, exchange)` creates the
per-symbol record lazily on first access. -/
def getPendingTickerInfo (m : TickerMap) (symbol exchange : String) :
    PendingTickerInfo × TickerMap :=
  match lookupTicker m symbol with
  | none => (PendingTickerInfo.initial symbol exchange,
             setTicker m symbol (PendingTickerInfo.initial symbol exchange))
  | some info => (info, m)

/-- Payload of a message consumed by the derivative-ticker mapper: the source
discriminates by `'r' in message.data` (mark-price stream, fields `p` and `r`)
versus `'c' in message.data` (ticker stream, field `c`). -/
inductive BinanceFuturesTickerMessageData
  | markPrice (s : String) (E : Int) (p : Int) (r : Int)
  | ticker (s : String) (E : Int) (c : Int)
deriving Repr, DecidableEq

/-- Symbol field of the ticker-message payload. -/
def BinanceFuturesTickerMessageData.symbol : BinanceFuturesTickerMessageData → String
  | .markPrice s _ _ _ => s
  | .ticker s _ _ => s

/-- Embeds `BinanceFuturesDerivativeTickerMapper.map`, with the helper store
threaded explicitly; yields the list of emitted tickers and the new store. -/
def BinanceFuturesDerivativeTickerMapper.map (m : TickerMap)
    (data : BinanceFuturesTickerMessageData) (localTimestamp : Int) :
    List DerivativeTicker × TickerMap :=
  let pm := getPendingTickerInfo m data.symbol "binance-futures"
  let pendingTickerInfo :=
    match data with
    | .markPrice _ E p r =>
      ((pm.1.updateFundingRate r).updateMarkPrice p).updateTimestamp E
    | .ticker _ E c =>
      (pm.1.updateLastPrice c).updateTimestamp E
  if pendingTickerInfo.hasChanged then
    let snap := pendingTickerInfo.getSnapshot localTimestamp
    ([snap.1], setTicker pm.2 data.symbol snap.2)
  else
    ([], setTicker pm.2 data.symbol pendingTickerInfo)

/-- Key lemma: assignment then lookup at the same key. -/
theorem lookupSymbol_setSymbol_self (m : SymbolMap) (s : String) (info : LocalDepthInfo) :
    lookupSymbol (setSymbol m s info) s = some info := by
  induction m with
  | nil => simp [setSymbol, lookupSymbol]
  | cons kv rest ih =>
    obtain ⟨k, v⟩ := kv
    by_cases h : k = s
    · simp [setSymbol, lookupSymbol, h]
    · simp [setSymbol, lookupSymbol, h, List.find?]
      simpa [lookupSymbol] using ih

/-- C4: with a processed snapshot, an update whose end id is not strictly
greater than `lastUpdateId` yields no events, no error, and leaves the whole
mapper state unchanged. -/
theorem stale_update_discarded
    (exchange : String) (ignoreErr : Bool) (m : SymbolMap) (msg : DepthMessage)
    (d : BinanceDepthData) (i : LocalDepthInfo) (L lt : Int)
    (hdata : msg.data = .update d)
    (hsym : symbolFromStream msg.stream = d.s)
    (hlook : lookupSymbol m d.s = some i)
    (hproc : i.snapshotProcessed = true)
    (hlast : i.lastUpdateId = some L)
    (hstale : d.u ≤ L) :
    BinanceBookChangeMapper.map exchange ignoreErr m msg lt =
      { events := [], state := m, error := none } := by
  simp only [BinanceBookChangeMapper.map, hsym, getOrCreateInfo, hlook, hdata, hproc,
    BinanceBookChangeMapper.mapBookDepthUpdate, hlast]
  simp [hstale]

/-- C4 witness at the spec's example input: `u = 99` against `lastUpdateId = 100`. -/
theorem stale_update_discarded_witness :
    BinanceBookChangeMapper.map "binance" false
      [("BTCUSDT", { bufferedUpdates := CircularBuffer.new BinanceDepthData 200,
                     snapshotProcessed := true, lastUpdateId := some 100,
                     validatedFirstUpdate := true })]
      ⟨"btcusdt@depth", .update ⟨1, "BTCUSDT", 95, 99, [], []⟩⟩ 7 =
      { events := []
        state := [("BTCUSDT", { bufferedUpdates := CircularBuffer.new BinanceDepthData 200,
                                snapshotProcessed := true, lastUpdateId := some 100,
                                validatedFirstUpdate := true })]
        error := none } :=
  stale_update_discarded "binance" false _ _ _ _ 100 7 rfl (by decide) rfl rfl rfl (by decide)

/-- C5: a snapshot message for a symbol that already has a snapshot applied
yields zero events, no error, and leaves the whole mapper state (including
`lastUpdateId`) unchanged. -/
theorem second_snapshot_ignored
    (exchange : String) (ignoreErr : Bool) (m : SymbolMap) (msg : DepthMessage)
    (d : BinanceDepthSnapshotData) (i : LocalDepthInfo) (lt : Int)
    (hdata : msg.data = .snapshot d)
    (hlook : lookupSymbol m (symbolFromStream msg.stream) = some i)
    (hproc : i.snapshotProcessed = true) :
    BinanceBookChangeMapper.map exchange ignoreErr m msg lt =
      { events := [], state := m, error := none } := by
  simp [BinanceBookChangeMapper.map, getOrCreateInfo, hlook, hdata, hproc]

/-- C5 witness: a second snapshot for an initialized symbol is a no-op. -/
theorem second_snapshot_ignored_witness :
    BinanceBookChangeMapper.map "binance" false
      [("BTCUSDT", { bufferedUpdates := CircularBuffer.new BinanceDepthData 200,
                     snapshotProcessed := true, lastUpdateId := some 100,
                     validatedFirstUpdate := true })]
      ⟨"btcusdt@depth", .snapshot ⟨250, [(9, 1)], [(11, 2)]⟩⟩ 7 =
      { events := []
        state := [("BTCUSDT", { bufferedUpdates := CircularBuffer.new BinanceDepthData 200,
                                snapshotProcessed := true, lastUpdateId := some 100,
                                validatedFirstUpdate := true })]
        error := none } :=
  second_snapshot_ignored "binance" false _ _ ⟨250, [(9, 1)], [(11, 2)]⟩
    { bufferedUpdates := CircularBuffer.new BinanceDepthData 200,
      snapshotProcessed := true, lastUpdateId := some 100, validatedFirstUpdate := true }
    7 rfl (by decide) rfl

/-- C10: each of the three Binance `canHandle` predicates returns `false`
(rather than failing) on a message whose `stream` field is absent; in this
embedding `canHandle` is a pure function of the message alone, so it can
mutate no mapper state. -/
theorem canHandle_undefined_stream_false (message : BinanceRawMessage)
    (h : message.stream = none) :
    BinanceTradesMapper.canHandle message = false ∧
    BinanceBookChangeMapper.canHandle message = false ∧
    BinanceFuturesDerivativeTickerMapper.canHandle message = false := by
  simp [BinanceTradesMapper.canHandle, BinanceBookChangeMapper.canHandle,
    BinanceFuturesDerivativeTickerMapper.canHandle, h]

/-- C10 witness at the concrete stream-less message. -/
theorem canHandle_undefined_stream_false_witness :
    BinanceTradesMapper.canHandle ⟨none⟩ = false ∧
    BinanceBookChangeMapper.canHandle ⟨none⟩ = false ∧
    BinanceFuturesDerivativeTickerMapper.canHandle ⟨none⟩ = false :=
  canHandle_undefined_stream_false ⟨none⟩ rfl

/-- C8: each of the three normalization entry points returns a mapper for every
exchange registered in its table, and for an unregistered exchange fails
synchronously with the "not supported" error naming the operation and the
exchange. -/
theorem normalize_unsupported_errors (exchange : String) (n : Nat) (lt : Int) :
    ((lookupFactory tradesMappers exchange).isSome →
        (normalizeTrades exchange n).isOk = true) ∧
    (lookupFactory tradesMappers exchange = none →
        normalizeTrades exchange n =
          .error ("normalizeTrades: " ++ exchange ++ " not supported")) ∧
    ((lookupFactory bookChangeMappers exchange).isSome →
        (normalizeBookChanges exchange lt n).isOk = true) ∧
    (lookupFactory bookChangeMappers exchange = none →
        normalizeBookChanges exchange lt n =
          .error ("normalizeBookChanges: " ++ exchange ++ " not supported")) ∧
    ((lookupFactory derivativeTickersMappers exchange).isSome →
        (normalizeDerivativeTickers exchange n).isOk = true) ∧
    (lookupFactory derivativeTickersMappers exchange = none →
        normalizeDerivativeTickers exchange n =
          .error ("normalizeDerivativeTickers: " ++ exchange ++ " not supported")) := by
  refine ⟨?_, ?_, ?_, ?_, ?_, ?_⟩ <;>
    intro h <;>
    simp only [normalizeTrades, normalizeBookChanges, normalizeDerivativeTickers] <;>
    rcases hf : lookupFactory tradesMappers exchange with _ | f <;>
    rcases hb : lookupFactory bookChangeMappers exchange with _ | g <;>
    rcases hd : lookupFactory derivativeTickersMappers exchange with _ | k <;>
    simp_all [Except.isOk, Except.toBool]

/-- C8 witness: `binance` is registered for trades but has no derivative-ticker
mapper, so the former succeeds and the latter raises the descriptive error. -/
theorem normalize_unsupported_errors_witness :
    (normalizeTrades "binance" 0).isOk = true ∧
    normalizeDerivativeTickers "binance" 0 =
      .error ("normalizeDerivativeTickers: " ++ "binance" ++ " not supported") :=
  ⟨(normalize_unsupported_errors "binance" 0 0).1 (by rfl),
   (normalize_unsupported_errors "binance" 0 0).2.2.2.2.2 (by rfl)⟩

/-- Exchanges whose trades-registry entry constructs a `new` mapper per call. -/
def freshTradesExchanges : List String :=
  ["binance", "binance-us", "binance-jersey", "binance-futures",
   "bitfinex", "bitfinex-derivatives", "bitfinex-alts",
   "okex", "okex-futures", "okex-swap", "okex-options",
   "huobi", "huobi-dm", "bybit", "okcoin"]

/-- Exchanges whose trades-registry entry returns a module-level constant. -/
def sharedTradesExchanges : List String :=
  ["bitmex", "binance-dex", "bitflyer", "bitstamp", "coinbase", "cryptofacilities",
   "deribit", "ftx", "gemini", "kraken", "hitbtc"]

/-- Exchanges whose book-change-registry entry constructs a `new` mapper per call. -/
def freshBookExchanges : List String :=
  ["bitmex", "binance", "binance-us", "binance-jersey", "binance-futures",
   "bitfinex", "bitfinex-derivatives", "bitfinex-alts", "bitstamp",
   "okex", "okex-futures", "okex-swap", "okex-options",
   "huobi", "huobi-dm", "bybit", "okcoin"]

/-- Exchanges whose book-change-registry entry returns a module-level constant. -/
def sharedBookExchanges : List String :=
  ["binance-dex", "bitflyer", "coinbase", "cryptofacilities", "deribit",
   "ftx", "gemini", "kraken", "hitbtc"]

/-- Exchanges registered for derivative tickers (all constructed with `new`). -/
def derivativeExchanges : List String :=
  ["bitmex", "binance-futures", "bitfinex-derivatives", "cryptofacilities",
   "deribit", "okex-futures", "okex-swap", "bybit"]

/-- C7 counterexample: two `normalizeTrades('bitmex', ...)` calls, performed at
distinct allocation ids, both return the very same module-level
`bitmexTradesMapper` object, so a mapper instance is shared across calls. -/
theorem normalize_fresh_counterexample :
    normalizeTrades "bitmex" 0 = .ok (MapperRef.shared "bitmexTradesMapper") ∧
    normalizeTrades "bitmex" 1 = .ok (MapperRef.shared "bitmexTradesMapper") := by
  constructor <;> rfl

/-- C7 amended: normalization calls whose registry entry invokes a constructor
return a distinct fresh instance per call (in particular every
`normalizeDerivativeTickers` call), while the remaining entries hand out one
shared module-level instance on every call. -/
theorem normalize_freshness (n₁ n₂ : Nat) (h : n₁ ≠ n₂) :
    (∀ ex ∈ freshTradesExchanges, normalizeTrades ex n₁ ≠ normalizeTrades ex n₂) ∧
    (∀ ex ∈ sharedTradesExchanges, normalizeTrades ex n₁ = normalizeTrades ex n₂) ∧
    (∀ ex ∈ freshBookExchanges, ∀ lt : Int,
        normalizeBookChanges ex lt n₁ ≠ normalizeBookChanges ex lt n₂) ∧
    (∀ ex ∈ sharedBookExchanges, ∀ lt : Int,
        normalizeBookChanges ex lt n₁ = normalizeBookChanges ex lt n₂) ∧
    (∀ ex ∈ derivativeExchanges,
        normalizeDerivativeTickers ex n₁ ≠ normalizeDerivativeTickers ex n₂) := by
  refine ⟨?_, ?_, ?_, ?_, ?_⟩ <;> intro ex hex <;> fin_cases hex <;>
    simp_all [normalizeTrades, normalizeBookChanges, normalizeDerivativeTickers,
      lookupFactory, tradesMappers, bookChangeMappers, derivativeTickersMappers,
      List.find?]

/-- C7 amended witness: distinct ids 0 and 1; `binance` trades mappers are
distinct objects while the two `bitmex` trades mappers coincide. -/
theorem normalize_freshness_witness :
    normalizeTrades "binance" 0 ≠ normalizeTrades "binance" 1 ∧
    normalizeTrades "bitmex" 0 = normalizeTrades "bitmex" 1 :=
  ⟨(normalize_freshness 0 1 (by decide)).1 "binance" (by decide),
   (normalize_freshness 0 1 (by decide)).2.1 "bitmex" (by decide)⟩

/-- C1: the first non-stale update after a snapshot is checked for overlap
(`U ≤ lastUpdateId + 1` and `u ≥ lastUpdateId + 1`, the empty-snapshot sentinel
`-1` always passing); on success it is emitted and the symbol marked validated;
on failure strict mode throws the message naming the offending sequence ids and
the exchange, while tolerant mode marks validated and still emits the
`isSnapshot = false` book change. -/
theorem first_update_overlap_validation
    (exchange : String) (ignoreErr : Bool) (m : SymbolMap) (msg : DepthMessage)
    (d : BinanceDepthData) (i : LocalDepthInfo) (L lt : Int)
    (hdata : msg.data = .update d)
    (hsym : symbolFromStream msg.stream = d.s)
    (hlook : lookupSymbol m d.s = some i)
    (hproc : i.snapshotProcessed = true)
    (hlast : i.lastUpdateId = some L)
    (hvf : i.validatedFirstUpdate = false)
    (hfresh : L < d.u) :
    (((d.U ≤ L + 1 ∧ L + 1 ≤ d.u) ∨ L = -1) →
      BinanceBookChangeMapper.map exchange ignoreErr m msg lt =
        { events := [depthUpdateBookChange exchange d lt]
          state := setSymbol m d.s { i with validatedFirstUpdate := true }
          error := none }) ∧
    (¬((d.U ≤ L + 1 ∧ L + 1 ≤ d.u) ∨ L = -1) → ignoreErr = false →
      (BinanceBookChangeMapper.map exchange ignoreErr m msg lt =
        { events := [], state := m, error := some (overlapErrorMessage exchange d L) } ∧
       ∃ s1 s2 s3, overlapErrorMessage exchange d L =
         s1 ++ toString d.U ++ s2 ++ toString d.u ++ s3 ++ exchange)) ∧
    (¬((d.U ≤ L + 1 ∧ L + 1 ≤ d.u) ∨ L = -1) → ignoreErr = true →
      BinanceBookChangeMapper.map exchange ignoreErr m msg lt =
        { events := [depthUpdateBookChange exchange d lt]
          state := setSymbol m d.s { i with validatedFirstUpdate := true }
          error := none }) := by
  have hstale : ¬(d.u ≤ L) := not_le.mpr hfresh
  refine ⟨?_, ?_, ?_⟩
  · intro hpass
    simp [BinanceBookChangeMapper.map, hsym, getOrCreateInfo, hlook, hdata, hproc,
      BinanceBookChangeMapper.mapBookDepthUpdate, hlast, hvf, hstale, hpass]
  · intro hfail hstrict
    subst hstrict
    refine ⟨?_, ?_⟩
    · simp [BinanceBookChangeMapper.map, hsym, getOrCreateInfo, hlook, hdata, hproc,
        BinanceBookChangeMapper.mapBookDepthUpdate, hlast, hvf, hstale, hfail]
    · refine ⟨"Book depth snaphot has no overlap with first update, update " ++
        ("\x7b\"E\":" ++ toString d.E ++ ",\"s\":\"" ++ d.s ++ "\",\"U\":"),
        ",\"u\":",
        ",\"b\":" ++ jsonStringifyLevels d.b ++ ",\"a\":" ++ jsonStringifyLevels d.a ++
          "\x7d" ++ ", lastUpdateId: " ++ toString L ++ ", exchange ", ?_⟩
      simp [overlapErrorMessage, jsonStringifyDepthData, String.append_assoc]
  · intro hfail htol
    subst htol
    simp [BinanceBookChangeMapper.map, hsym, getOrCreateInfo, hlook, hdata, hproc,
      BinanceBookChangeMapper.mapBookDepthUpdate, hlast, hvf, hstale, hfail]

/-- C1 witness: strict mode, snapshot id 100, first update `U = 110, u = 120`
(no overlap): `map` throws the reconciliation message. -/
theorem first_update_overlap_validation_witness :
    BinanceBookChangeMapper.map "binance" false
      [("BTCUSDT", { bufferedUpdates := CircularBuffer.new BinanceDepthData 200,
                     snapshotProcessed := true, lastUpdateId := some 100,
                     validatedFirstUpdate := false })]
      ⟨"btcusdt@depth", .update ⟨5, "BTCUSDT", 110, 120, [], []⟩⟩ 7 =
      { events := []
        state := [("BTCUSDT", { bufferedUpdates := CircularBuffer.new BinanceDepthData 200,
                                snapshotProcessed := true, lastUpdateId := some 100,
                                validatedFirstUpdate := false })]
        error := some (overlapErrorMessage "binance" ⟨5, "BTCUSDT", 110, 120, [], []⟩ 100) } :=
  ((first_update_overlap_validation "binance" false
      [("BTCUSDT", { bufferedUpdates := CircularBuffer.new BinanceDepthData 200,
                     snapshotProcessed := true, lastUpdateId := some 100,
                     validatedFirstUpdate := false })]
      ⟨"btcusdt@depth", .update ⟨5, "BTCUSDT", 110, 120, [], []⟩⟩
      ⟨5, "BTCUSDT", 110, 120, [], []⟩
      { bufferedUpdates := CircularBuffer.new BinanceDepthData 200,
        snapshotProcessed := true, lastUpdateId := some 100, validatedFirstUpdate := false }
      100 7 rfl (by decide) rfl rfl rfl rfl (by decide)).2.1 (by decide) rfl).1

/-- C6 counterexample: after a snapshot with `lastUpdateId = 100` and an
accepted update with end id `u = 105`, a further update with `u = 103` — not
greater than the highest previously accepted end id — is NOT discarded: the run
emits three events (snapshot, first update, and the supposedly-stale update),
because staleness is tested against the snapshot's never-advanced
`lastUpdateId`, not against previously accepted updates. -/
theorem streaming_monotonicity_counterexample :
    (mapMessages "binance" false []
      [⟨"btcusdt@depth", .snapshot ⟨100, [], []⟩⟩,
       ⟨"btcusdt@depth", .update ⟨1, "BTCUSDT", 101, 105, [], []⟩⟩,
       ⟨"btcusdt@depth", .update ⟨2, "BTCUSDT", 102, 103, [], []⟩⟩] 0).events =
      [{ symbol := "BTCUSDT", exchange := "binance", isSnapshot := true,
         bids := [], asks := [], timestamp := 0, localTimestamp := 0 },
       depthUpdateBookChange "binance" ⟨1, "BTCUSDT", 101, 105, [], []⟩ 0,
       depthUpdateBookChange "binance" ⟨2, "BTCUSDT", 102, 103, [], []⟩ 0] := by
  rfl

/-- C6 amended: in the `Streaming` state (snapshot processed, first update
validated) an update is discarded with zero events and an unchanged state
precisely when its end id is not strictly greater than the snapshot's
`lastUpdateId`; an update above `lastUpdateId` is emitted even when its end id
is below the highest previously accepted one. Independence across symbols
holds because a discarded update leaves the entire symbol map untouched. -/
theorem streaming_stale_discard_iff
    (exchange : String) (ignoreErr : Bool) (m : SymbolMap) (msg : DepthMessage)
    (d : BinanceDepthData) (i : LocalDepthInfo) (L lt : Int)
    (hdata : msg.data = .update d)
    (hsym : symbolFromStream msg.stream = d.s)
    (hlook : lookupSymbol m d.s = some i)
    (hproc : i.snapshotProcessed = true)
    (hlast : i.lastUpdateId = some L)
    (hvf : i.validatedFirstUpdate = true) :
    (d.u ≤ L →
      BinanceBookChangeMapper.map exchange ignoreErr m msg lt =
        { events := [], state := m, error := none }) ∧
    (L < d.u →
      BinanceBookChangeMapper.map exchange ignoreErr m msg lt =
        { events := [depthUpdateBookChange exchange d lt], state := m, error := none }) := by
  constructor
  · intro hstale
    simp [BinanceBookChangeMapper.map, hsym, getOrCreateInfo, hlook, hdata, hproc,
      BinanceBookChangeMapper.mapBookDepthUpdate, hlast, hstale]
  · intro hfresh
    have hstale : ¬(d.u ≤ L) := not_le.mpr hfresh
    simp [BinanceBookChangeMapper.map, hsym, getOrCreateInfo, hlook, hdata, hproc,
      BinanceBookChangeMapper.mapBookDepthUpdate, hlast, hstale, hvf]

/-- C6 amended witness: streaming symbol with snapshot id 100; `u = 99` is
discarded while `u = 103` (below a previously accepted 105) is emitted. -/
theorem streaming_stale_discard_iff_witness :
    BinanceBookChangeMapper.map "binance" false
      [("BTCUSDT", { bufferedUpdates := CircularBuffer.new BinanceDepthData 200,
                     snapshotProcessed := true, lastUpdateId := some 100,
                     validatedFirstUpdate := true })]
      ⟨"btcusdt@depth", .update ⟨2, "BTCUSDT", 102, 103, [], []⟩⟩ 0 =
      { events := [depthUpdateBookChange "binance" ⟨2, "BTCUSDT", 102, 103, [], []⟩ 0]
        state := [("BTCUSDT", { bufferedUpdates := CircularBuffer.new BinanceDepthData 200,
                                snapshotProcessed := true, lastUpdateId := some 100,
                                validatedFirstUpdate := true })]
        error := none } :=
  (streaming_stale_discard_iff "binance" false
      [("BTCUSDT", { bufferedUpdates := CircularBuffer.new BinanceDepthData 200,
                     snapshotProcessed := true, lastUpdateId := some 100,
                     validatedFirstUpdate := true })]
      ⟨"btcusdt@depth", .update ⟨2, "BTCUSDT", 102, 103, [], []⟩⟩
      ⟨2, "BTCUSDT", 102, 103, [], []⟩
      { bufferedUpdates := CircularBuffer.new BinanceDepthData 200,
        snapshotProcessed := true, lastUpdateId := some 100, validatedFirstUpdate := true }
      100 0 rfl (by decide) rfl rfl rfl rfl).2 (by decide)

/-- Key lemma: ticker-store assignment then lookup at the same key. -/
theorem lookupTicker_setTicker_self (m : TickerMap) (s : String) (info : PendingTickerInfo) :
    lookupTicker (setTicker m s info) s = some info := by
  induction m with
  | nil => simp [setTicker, lookupTicker]
  | cons kv rest ih =>
    obtain ⟨k, v⟩ := kv
    by_cases h : k = s
    · simp [setTicker, lookupTicker, h]
    · simp [setTicker, lookupTicker, h, List.find?]
      simpa [lookupTicker] using ih

/-- Specification predicate: does this message carry at least one field value
different from the one stored in the pending-ticker record. -/
def tickerChangedBy (p : PendingTickerInfo) : BinanceFuturesTickerMessageData → Bool
  | .markPrice _ E pr r =>
    (p.fundingRate != some r) || (p.markPrice != some pr) || (p.timestamp != some E)
  | .ticker _ E c =>
    (p.lastPrice != some c) || (p.timestamp != some E)

/-- The pending record stored after processing a message, starting from a
record with clear dirty flags: field values absorbed, flags clear again. -/
def tickerPostInfo (p : PendingTickerInfo) : BinanceFuturesTickerMessageData → PendingTickerInfo
  | .markPrice _ E pr r =>
    { p with fundingRate := some r, markPrice := some pr, timestamp := some E,
             fundingRateChanged := false, markPriceChanged := false,
             lastPriceChanged := false, timestampChanged := false }
  | .ticker _ E c =>
    { p with lastPrice := some c, timestamp := some E,
             fundingRateChanged := false, markPriceChanged := false,
             lastPriceChanged := false, timestampChanged := false }

/-- Dirty flags of a pending record are all clear. -/
def flagsClear (p : PendingTickerInfo) : Prop :=
  p.fundingRateChanged = false ∧ p.markPriceChanged = false ∧
  p.lastPriceChanged = false ∧ p.timestampChanged = false

/-- Characterization of one `map` call of the derivative-ticker mapper from a
record with clear dirty flags: it emits exactly when a field value changed, and
stores the absorbed record with clear flags. -/
theorem derivTickerMap_characterization (m : TickerMap)
    (data : BinanceFuturesTickerMessageData) (lt : Int)
    (hclear : flagsClear (getPendingTickerInfo m data.symbol "binance-futures").1) :
    BinanceFuturesDerivativeTickerMapper.map m data lt =
      (if tickerChangedBy (getPendingTickerInfo m data.symbol "binance-futures").1 data then
        [((tickerPostInfo (getPendingTickerInfo m data.symbol "binance-futures").1 data).getSnapshot lt).1]
       else [],
       setTicker (getPendingTickerInfo m data.symbol "binance-futures").2 data.symbol
         (tickerPostInfo (getPendingTickerInfo m data.symbol "binance-futures").1 data)) := by
  obtain ⟨h1, h2, h3, h4⟩ := hclear
  rcases data with ⟨s, E, pr, r⟩ | ⟨s, E, c⟩ <;>
    simp only [BinanceFuturesTickerMessageData.symbol] at h1 h2 h3 h4 ⊢ <;>
    rcases hp : getPendingTickerInfo m s "binance-futures" with ⟨p, m2⟩ <;>
    rw [hp] at h1 h2 h3 h4 <;>
    obtain ⟨psym, pex, pfr, pmp, plp, poi, pts, pf1, pf2, pf3, pf4⟩ := p <;>
    simp only at h1 h2 h3 h4 <;>
    subst h1 h2 h3 h4 <;>
    simp only [BinanceFuturesDerivativeTickerMapper.map,
      BinanceFuturesTickerMessageData.symbol, hp, tickerChangedBy, tickerPostInfo,
      PendingTickerInfo.updateFundingRate, PendingTickerInfo.updateMarkPrice,
      PendingTickerInfo.updateLastPrice, PendingTickerInfo.updateTimestamp,
      PendingTickerInfo.hasChanged, PendingTickerInfo.getSnapshot] <;>
    split_ifs <;>
    simp_all

/-- Post-absorption record never reports its message as a change again. -/
theorem tickerChangedBy_postInfo_false (p : PendingTickerInfo)
    (data : BinanceFuturesTickerMessageData) :
    tickerChangedBy (tickerPostInfo p data) data = false := by
  rcases data with ⟨s, E, pr, r⟩ | ⟨s, E, c⟩ <;> simp [tickerChangedBy, tickerPostInfo]

/-- Post-absorption record has clear dirty flags. -/
theorem flagsClear_postInfo (p : PendingTickerInfo)
    (data : BinanceFuturesTickerMessageData) :
    flagsClear (tickerPostInfo p data) := by
  rcases data with ⟨s, E, pr, r⟩ | ⟨s, E, c⟩ <;>
    exact ⟨rfl, rfl, rfl, rfl⟩

/-- C9: starting from a pending-ticker store whose record for the message's
symbol has no dirty flag (the invariant every reachable state satisfies), `map`
emits exactly one `DerivativeTicker` when the message changes some accumulated
field (funding rate, mark price, last price or timestamp) and none otherwise;
and a second identical message right after emits nothing. -/
theorem derivative_ticker_emits_iff_changed
    (m : TickerMap) (data : BinanceFuturesTickerMessageData) (lt lt2 : Int)
    (hclear : flagsClear (getPendingTickerInfo m data.symbol "binance-futures").1) :
    ((BinanceFuturesDerivativeTickerMapper.map m data lt).1.length =
       if tickerChangedBy (getPendingTickerInfo m data.symbol "binance-futures").1 data
       then 1 else 0) ∧
    (BinanceFuturesDerivativeTickerMapper.map
       (BinanceFuturesDerivativeTickerMapper.map m data lt).2 data lt2).1 = [] := by
  have h := derivTickerMap_characterization m data lt hclear
  have hstate : (BinanceFuturesDerivativeTickerMapper.map m data lt).2 =
      setTicker (getPendingTickerInfo m data.symbol "binance-futures").2 data.symbol
        (tickerPostInfo (getPendingTickerInfo m data.symbol "binance-futures").1 data) := by
    rw [h]
  have hget2 : getPendingTickerInfo
      (setTicker (getPendingTickerInfo m data.symbol "binance-futures").2 data.symbol
        (tickerPostInfo (getPendingTickerInfo m data.symbol "binance-futures").1 data))
      data.symbol "binance-futures" =
      (tickerPostInfo (getPendingTickerInfo m data.symbol "binance-futures").1 data,
       setTicker (getPendingTickerInfo m data.symbol "binance-futures").2 data.symbol
        (tickerPostInfo (getPendingTickerInfo m data.symbol "binance-futures").1 data)) := by
    simp [getPendingTickerInfo, lookupTicker_setTicker_self]
  constructor
  · rw [h]
    split_ifs <;> simp
  · rw [hstate]
    have hclear2 : flagsClear (getPendingTickerInfo
        (setTicker (getPendingTickerInfo m data.symbol "binance-futures").2 data.symbol
          (tickerPostInfo (getPendingTickerInfo m data.symbol "binance-futures").1 data))
        data.symbol "binance-futures").1 := by
      rw [hget2]
      exact flagsClear_postInfo _ _
    have h2 := derivTickerMap_characterization _ data lt2 hclear2
    rw [h2, hget2]
    simp [tickerChangedBy_postInfo_false]

/-- C9 witness: from an empty store, a first mark-price message emits one
ticker and an identical second one emits none. -/
theorem derivative_ticker_emits_iff_changed_witness :
    flagsClear (getPendingTickerInfo [] "BTCUSDT" "binance-futures").1 ∧
    ((BinanceFuturesDerivativeTickerMapper.map [] (.markPrice "BTCUSDT" 10 500 3) 7).1.length =
      if tickerChangedBy (getPendingTickerInfo [] "BTCUSDT" "binance-futures").1
          (.markPrice "BTCUSDT" 10 500 3) then 1 else 0) ∧
    (BinanceFuturesDerivativeTickerMapper.map
       (BinanceFuturesDerivativeTickerMapper.map [] (.markPrice "BTCUSDT" 10 500 3) 7).2
       (.markPrice "BTCUSDT" 10 500 3) 8).1 = [] :=
  ⟨⟨rfl, rfl, rfl, rfl⟩,
   derivative_ticker_emits_iff_changed [] (.markPrice "BTCUSDT" 10 500 3) 7 8
     ⟨rfl, rfl, rfl, rfl⟩⟩

/-- filterMap over a range whose function is total on the range is a map. -/
theorem filterMap_range_eq_map {β : Type} (n : Nat) (f : Nat → Option β) (g : Nat → β)
    (h : ∀ j, j < n → f j = some (g j)) :
    (List.range n).filterMap f = (List.range n).map g := by
  induction n with
  | zero => simp
  | succ k ih =>
    rw [List.range_succ, List.filterMap_append, List.map_append,
      ih (fun j hj => h j (by omega))]
    simp [h k (by omega)]

/-- The items of a nonempty buffer are its backing array rotated left by the
cursor: oldest element first. -/
theorem CircularBuffer.items_eq_rotate {T : Type} (cb : CircularBuffer T)
    (h : 0 < cb.buffer.length) :
    cb.items = cb.buffer.rotate cb.index := by
  apply List.ext_get?
  intro j
  unfold CircularBuffer.items
  rw [filterMap_range_eq_map cb.buffer.length _
      (fun i => cb.buffer.get ⟨(cb.index + i) % cb.buffer.length, Nat.mod_lt _ h⟩)
      (fun i _ => List.get?_eq_get (Nat.mod_lt _ h))]
  rcases Nat.lt_or_ge j cb.buffer.length with hj | hj
  · rw [List.get?_map, List.get?_range hj, List.get?_rotate hj,
      List.get?_eq_get (Nat.mod_lt _ h)]
    simp [Nat.add_comm]
  · rw [List.get?_eq_none.mpr, List.get?_eq_none.mpr]
    · simpa using hj
    · simpa using hj

/-- Overwriting the oldest slot of a full rotated buffer equals rotating the
dequeue-then-enqueue of the abstract queue. -/
theorem set_rotate_append {T : Type} (q : List T) (v : T) (i : Nat)
    (hi : i < q.length) :
    (q.rotate (q.length - i)).set i v =
      ((q ++ [v]).drop 1).rotate (q.length - (i + 1)) := by
  have hq : 0 < q.length := by omega
  rw [List.rotate_eq_drop_append_take (Nat.sub_le _ _)]
  have hdroplen : (q.drop (q.length - i)).length = i := by
    rw [List.length_drop]; omega
  rw [List.set_append, hdroplen, if_neg (by omega), Nat.sub_self]
  have hA : (q ++ [v]).drop 1 = q.drop 1 ++ [v] := by
    rw [List.drop_append_eq_append_drop]
    have h10 : 1 - q.length = 0 := by omega
    rw [h10]
    rfl
  rw [hA]
  have hlen' : (q.drop 1 ++ [v]).length = q.length := by
    simp [List.length_drop]; omega
  rw [List.rotate_eq_drop_append_take (by rw [hlen']; omega)]
  rw [List.drop_append_eq_append_drop, List.take_append_eq_append_take]
  rw [List.drop_drop]
  have e1 : 1 + (q.length - (i + 1)) = q.length - i := by omega
  have e2 : q.length - (i + 1) - (q.drop 1).length = 0 := by
    rw [List.length_drop]; omega
  rw [e1, e2]
  simp only [List.drop_zero, List.take_zero, List.append_nil]
  have htake_ne : q.take (q.length - i) ≠ [] := by
    intro hc
    have hl : (q.take (q.length - i)).length = q.length - i := by
      rw [List.length_take]; omega
    rw [hc] at hl
    simp at hl
    omega
  have hset : (q.take (q.length - i)).set 0 v = v :: (q.take (q.length - i)).tail := by
    cases hq' : q.take (q.length - i) with
    | nil => exact absurd hq' htake_ne
    | cons a l => rfl
  rw [hset]
  have htail : (q.take (q.length - i)).tail = (q.drop 1).take (q.length - (i + 1)) := by
    rw [← List.drop_one, List.drop_take]
    congr 1
  rw [htail]
  simp [List.append_assoc]

/-- Coupling invariant between a buffer state reachable from empty and the
abstract FIFO queue `q` of its current contents, oldest first. -/
def CircularBuffer.Inv {T : Type} (cb : CircularBuffer T) (q : List T) : Prop :=
  (q.length < cb.bufferSize ∧ cb.buffer = q ∧ cb.index = q.length) ∨
  (q.length = cb.bufferSize ∧ cb.index < cb.bufferSize ∧
    cb.buffer = q.rotate (cb.bufferSize - cb.index))

/-- The invariant determines the items: exactly the abstract queue. -/
theorem CircularBuffer.items_of_inv {T : Type} (cb : CircularBuffer T) (q : List T)
    (hN : 0 < cb.bufferSize) (h : cb.Inv q) : cb.items = q := by
  rcases h with ⟨hlt, hbuf, hidx⟩ | ⟨hlen, hidx, hbuf⟩
  · rcases Nat.eq_zero_or_pos q.length with h0 | hpos
    · have hq : q = [] := List.length_eq_zero.mp h0
      subst hq
      simp [CircularBuffer.items, hbuf]
    · rw [CircularBuffer.items_eq_rotate _ (by rw [hbuf]; omega), hbuf, hidx]
      exact List.rotate_length q
  · have hqpos : 0 < q.length := by omega
    have hblen : cb.buffer.length = q.length := by
      rw [hbuf, List.length_rotate]
    rw [CircularBuffer.items_eq_rotate _ (by omega), hbuf, List.rotate_rotate]
    have e : cb.bufferSize - cb.index + cb.index = q.length := by omega
    rw [e]
    exact List.rotate_length q

/-- One `append` step advances the abstract queue: enqueue, dropping the head
exactly when the buffer was at capacity. -/
theorem CircularBuffer.append_inv {T : Type} (cb : CircularBuffer T) (q : List T) (v : T)
    (hN : 0 < cb.bufferSize) (h : cb.Inv q) :
    (cb.append v).1.Inv ((q ++ [v]).drop (q.length + 1 - cb.bufferSize)) ∧
    (cb.append v).1.bufferSize = cb.bufferSize := by
  refine ⟨?_, rfl⟩
  have hbs : (cb.append v).1.bufferSize = cb.bufferSize := rfl
  rcases h with ⟨hlt, hbuf, hidx⟩ | ⟨hlen, hidx, hbuf⟩
  · -- not yet full: plain push
    have hdrop0 : q.length + 1 - cb.bufferSize = 0 := by omega
    rw [hdrop0, List.drop_zero]
    have hcond : ¬(cb.index < cb.buffer.length) := by rw [hbuf, hidx]; omega
    have hbuf' : (cb.append v).1.buffer = q ++ [v] := by
      simp only [CircularBuffer.append]
      rw [if_neg hcond, hbuf]
    have hidx' : (cb.append v).1.index = (q.length + 1) % cb.bufferSize := by
      simp only [CircularBuffer.append]
      rw [hidx]
    rcases Nat.lt_or_ge (q.length + 1) cb.bufferSize with hfits | hfull
    · left
      refine ⟨?_, hbuf', ?_⟩
      · rw [hbs]; simp; omega
      · rw [hidx', Nat.mod_eq_of_lt hfits]; simp
    · have heq : q.length + 1 = cb.bufferSize := by omega
      right
      refine ⟨?_, ?_, ?_⟩
      · rw [hbs]; simp; omega
      · rw [hidx', hbs, heq, Nat.mod_self]; omega
      · rw [hbuf', hbs, hidx', heq, Nat.mod_self, Nat.sub_zero]
        have hl : (q ++ [v]).length = cb.bufferSize := by simp; omega
        rw [← hl, List.rotate_length]
  · -- full: overwrite the oldest slot
    have hblen : cb.buffer.length = cb.bufferSize := by
      rw [hbuf, List.length_rotate]; omega
    have hdrop1 : q.length + 1 - cb.bufferSize = 1 := by omega
    rw [hdrop1]
    have hbuf' : (cb.append v).1.buffer = cb.buffer.set cb.index v := by
      simp only [CircularBuffer.append]
      rw [if_pos (by omega)]
    have hidx' : (cb.append v).1.index = (cb.index + 1) % cb.bufferSize := rfl
    right
    have hqlen' : ((q ++ [v]).drop 1).length = cb.bufferSize := by
      simp [List.length_drop]; omega
    refine ⟨hqlen', by rw [hidx']; exact Nat.mod_lt _ hN, ?_⟩
    rw [hbuf', hbuf, hidx']
    have hset := set_rotate_append q v cb.index (by omega)
    rw [hlen] at hset
    rcases Nat.lt_or_ge (cb.index + 1) cb.bufferSize with hlt1 | hge1
    · rw [Nat.mod_eq_of_lt hlt1]
      exact hset
    · have heq1 : cb.index + 1 = cb.bufferSize := by omega
      rw [heq1, Nat.mod_self, Nat.sub_zero]
      rw [hset, heq1, Nat.sub_self]
      rw [show (cb.append v).1.bufferSize = cb.bufferSize from rfl]
      rw [← hqlen', List.rotate_length, List.rotate_zero]

/-- Repeated `append`, as performed by the pre-snapshot buffering loop. -/
def CircularBuffer.appendAll {T : Type} (cb : CircularBuffer T) (xs : List T) :
    CircularBuffer T :=
  xs.foldl (fun c x => (c.append x).1) cb

/-- The FIFO eviction law: appending a batch keeps exactly the most recent
`bufferSize` enqueued elements, oldest first. -/
theorem CircularBuffer.appendAll_inv {T : Type} (xs : List T) :
    ∀ (cb : CircularBuffer T) (q : List T), 0 < cb.bufferSize → cb.Inv q →
      (cb.appendAll xs).Inv ((q ++ xs).drop (q.length + xs.length - cb.bufferSize)) ∧
      (cb.appendAll xs).bufferSize = cb.bufferSize := by
  induction xs with
  | nil =>
    intro cb q hN h
    have hqlen : q.length ≤ cb.bufferSize := by
      rcases h with ⟨hlt, _, _⟩ | ⟨hlen, _, _⟩ <;> omega
    have hdrop : q.length - cb.bufferSize = 0 := by omega
    simpa [CircularBuffer.appendAll, hdrop] using h
  | cons v rest ih =>
    intro cb q hN h
    have hstep := CircularBuffer.append_inv cb q v hN h
    have hN' : 0 < (cb.append v).1.bufferSize := by rw [hstep.2]; omega
    have hrec := ih (cb.append v).1 ((q ++ [v]).drop (q.length + 1 - cb.bufferSize))
      hN' hstep.1
    have hall : (cb.appendAll (v :: rest)) = ((cb.append v).1.appendAll rest) := rfl
    have hqlen : q.length ≤ cb.bufferSize := by
      rcases h with ⟨hlt, _, _⟩ | ⟨hlen, _, _⟩ <;> omega
    rcases Nat.lt_or_ge q.length cb.bufferSize with hlt | hge
    · -- still room: the enqueue drops nothing
      have e0 : q.length + 1 - cb.bufferSize = 0 := by omega
      have e1 : ((q ++ [v]).drop 0).length = q.length + 1 := by simp
      rw [e0, List.drop_zero] at hrec
      have e2 : (q ++ [v]).length + rest.length - cb.bufferSize =
          q.length + (v :: rest).length - cb.bufferSize := by
        simp
        omega
      rw [hall]
      constructor
      · have := hrec.1
        rw [hstep.2] at this
        simpa [List.append_assoc, List.length_append, Nat.add_assoc,
          Nat.add_comm, Nat.add_left_comm] using this
      · rw [hrec.2, hstep.2]
    · -- at capacity: the enqueue evicts the head
      have hge' : q.length = cb.bufferSize := by omega
      have e0 : q.length + 1 - cb.bufferSize = 1 := by omega
      rw [e0] at hrec
      have hq1len : ((q ++ [v]).drop 1).length = q.length := by simp
      rw [hall]
      constructor
      · have hmain := hrec.1
        rw [hstep.2, hq1len] at hmain
        have eassoc : (q ++ [v]).drop 1 ++ rest = (q ++ v :: rest).drop 1 := by
          rw [List.drop_append_eq_append_drop]
          have h10 : 1 - q.length = 0 := by omega
          rw [List.drop_append_eq_append_drop, h10]
          simp
        rw [eassoc] at hmain
        rw [List.drop_drop] at hmain
        have earith : 1 + (q.length + rest.length - cb.bufferSize) =
            q.length + (v :: rest).length - cb.bufferSize := by simp; omega
        rw [earith] at hmain
        exact hmain
      · rw [hrec.2, hstep.2]

/-- Pre-snapshot update handling: the update is buffered, nothing emitted. -/
theorem map_buffers_pre_snapshot
    (exchange : String) (ig : Bool) (m : SymbolMap) (msg : DepthMessage)
    (d : BinanceDepthData) (i : LocalDepthInfo) (lt : Int)
    (hdata : msg.data = .update d)
    (hlook : lookupSymbol m (symbolFromStream msg.stream) = some i)
    (hproc : i.snapshotProcessed = false) :
    BinanceBookChangeMapper.map exchange ig m msg lt =
      { events := []
        state := setSymbol m (symbolFromStream msg.stream)
          { i with bufferedUpdates := (i.bufferedUpdates.append d).1 }
        error := none } := by
  simp [BinanceBookChangeMapper.map, getOrCreateInfo, hlook, hdata, hproc]

/-- Invariant of the pre-snapshot message loop over a single symbol. -/
theorem mapMessages_buffering_loop (exchange stream : String) (ig : Bool) (lt : Int)
    (datas : List BinanceDepthData) :
    ∀ cb : CircularBuffer BinanceDepthData,
      mapMessages exchange ig
        [(symbolFromStream stream,
          { bufferedUpdates := cb, snapshotProcessed := false,
            lastUpdateId := none, validatedFirstUpdate := false })]
        (datas.map (fun d => ⟨stream, .update d⟩)) lt =
      { events := []
        state := [(symbolFromStream stream,
          { bufferedUpdates := cb.appendAll datas, snapshotProcessed := false,
            lastUpdateId := none, validatedFirstUpdate := false })]
        error := none } := by
  induction datas with
  | nil => intro cb; rfl
  | cons d rest ih =>
    intro cb
    rw [List.map_cons]
    have hstep := map_buffers_pre_snapshot exchange ig
      [(symbolFromStream stream,
        { bufferedUpdates := cb, snapshotProcessed := false,
          lastUpdateId := none, validatedFirstUpdate := false })]
      ⟨stream, .update d⟩ d
      { bufferedUpdates := cb, snapshotProcessed := false,
        lastUpdateId := none, validatedFirstUpdate := false } lt rfl
      (by simp [lookupSymbol]) rfl
    simp only [mapMessages, hstep, setSymbol, beq_self_eq_true, if_pos]
    have happ : (cb.appendAll (d :: rest)) = ((cb.append d).1.appendAll rest) := rfl
    rw [happ]
    have hr := ih (cb.append d).1
    simp only [setSymbol] at hstep ⊢
    rw [hr]
    simp

/-- C2: feeding any batch of depth updates for one stream into a fresh mapper
before any snapshot emits zero events and throws nothing; all of them are
appended to the symbol's 200-slot ring buffer, whose items are exactly the most
recent 200 updates in original arrival order (FIFO eviction of the oldest). -/
theorem pre_snapshot_updates_buffered (exchange stream : String) (ig : Bool)
    (datas : List BinanceDepthData) (lt : Int) :
    (mapMessages exchange ig [] (datas.map (fun d => ⟨stream, .update d⟩)) lt).events = [] ∧
    (mapMessages exchange ig [] (datas.map (fun d => ⟨stream, .update d⟩)) lt).error = none ∧
    (mapMessages exchange ig [] (datas.map (fun d => ⟨stream, .update d⟩)) lt).state =
      (if datas = [] then ([] : SymbolMap) else
        [(symbolFromStream stream,
          { bufferedUpdates := (CircularBuffer.new BinanceDepthData 200).appendAll datas
            snapshotProcessed := false, lastUpdateId := none
            validatedFirstUpdate := false })]) ∧
    ((CircularBuffer.new BinanceDepthData 200).appendAll datas).items =
      datas.drop (datas.length - 200) := by
  have hitems : ((CircularBuffer.new BinanceDepthData 200).appendAll datas).items =
      datas.drop (datas.length - 200) := by
    have hinv : (CircularBuffer.new BinanceDepthData 200).Inv ([] : List BinanceDepthData) := by
      left
      exact ⟨by simp [CircularBuffer.new], rfl, rfl⟩
    have h := CircularBuffer.appendAll_inv datas (CircularBuffer.new BinanceDepthData 200) []
      (by simp [CircularBuffer.new]) hinv
    have := CircularBuffer.items_of_inv _ _ (by rw [h.2]; simp [CircularBuffer.new]) h.1
    simpa using this
  cases datas with
  | nil => exact ⟨rfl, rfl, rfl, hitems⟩
  | cons d rest =>
    rw [List.map_cons]
    have hfirst : BinanceBookChangeMapper.map exchange ig [] ⟨stream, .update d⟩ lt =
        { events := []
          state := [(symbolFromStream stream,
            { bufferedUpdates := ((CircularBuffer.new BinanceDepthData 200).append d).1
              snapshotProcessed := false, lastUpdateId := none
              validatedFirstUpdate := false })]
          error := none } := by
      simp [BinanceBookChangeMapper.map, getOrCreateInfo, lookupSymbol, setSymbol,
        LocalDepthInfo.initial]
    simp only [mapMessages, hfirst]
    have hr := mapMessages_buffering_loop exchange stream ig lt rest
      ((CircularBuffer.new BinanceDepthData 200).append d).1
    rw [hr]
    refine ⟨rfl, rfl, ?_, hitems⟩
    simp [CircularBuffer.appendAll]

/-- Re-assigning the same key twice keeps only the last assignment. -/
theorem setSymbol_setSymbol (m : SymbolMap) (s : String) (a b : LocalDepthInfo) :
    setSymbol (setSymbol m s a) s b = setSymbol m s b := by
  induction m with
  | nil => simp [setSymbol]
  | cons kv rest ih =>
    obtain ⟨k, v⟩ := kv
    by_cases h : k = s
    · simp [setSymbol, h]
    · simp [setSymbol, h, ih]

/-- Writing back the value already stored is a no-op. -/
theorem setSymbol_lookup_self (m : SymbolMap) (s : String) (i : LocalDepthInfo)
    (h : lookupSymbol m s = some i) : setSymbol m s i = m := by
  induction m with
  | nil => simp [lookupSymbol] at h
  | cons kv rest ih =>
    obtain ⟨k, v⟩ := kv
    by_cases hk : k = s
    · subst hk
      simp [lookupSymbol, List.find?] at h
      simp [setSymbol, h]
    · have hks : (k == s) = false := beq_eq_false_iff_ne.mpr hk
      simp [setSymbol, hks]
      apply ih
      simpa [lookupSymbol, List.find?, hks] using h

/-- Equation: a stale update is dropped without any effect. -/
theorem mapBookDepthUpdate_stale (exchange : String) (ig : Bool) (m : SymbolMap)
    (u : BinanceDepthData) (lt : Int) (i : LocalDepthInfo) (L : Int)
    (hlook : lookupSymbol m u.s = some i) (hlast : i.lastUpdateId = some L)
    (hstale : u.u ≤ L) :
    BinanceBookChangeMapper.mapBookDepthUpdate exchange ig m u lt = (none, m, none) := by
  simp [BinanceBookChangeMapper.mapBookDepthUpdate, hlook, hlast, hstale]

/-- Equation: a fresh update on a validated symbol is emitted, state unchanged. -/
theorem mapBookDepthUpdate_validated (exchange : String) (ig : Bool) (m : SymbolMap)
    (u : BinanceDepthData) (lt : Int) (i : LocalDepthInfo) (L : Int)
    (hlook : lookupSymbol m u.s = some i) (hlast : i.lastUpdateId = some L)
    (hfresh : L < u.u) (hvf : i.validatedFirstUpdate = true) :
    BinanceBookChangeMapper.mapBookDepthUpdate exchange ig m u lt =
      (some (depthUpdateBookChange exchange u lt), m, none) := by
  have hstale : ¬(u.u ≤ L) := by omega
  simp [BinanceBookChangeMapper.mapBookDepthUpdate, hlook, hlast, hstale, hvf]

/-- Equation: a fresh first update that passes the overlap test, or any fresh
first update in tolerant mode, is emitted and marks the symbol validated. -/
theorem mapBookDepthUpdate_first_ok (exchange : String) (ig : Bool) (m : SymbolMap)
    (u : BinanceDepthData) (lt : Int) (i : LocalDepthInfo) (L : Int)
    (hlook : lookupSymbol m u.s = some i) (hlast : i.lastUpdateId = some L)
    (hfresh : L < u.u) (hvf : i.validatedFirstUpdate = false)
    (hok : ((u.U ≤ L + 1 ∧ u.u ≥ L + 1) ∨ L = -1) ∨ ig = true) :
    BinanceBookChangeMapper.mapBookDepthUpdate exchange ig m u lt =
      (some (depthUpdateBookChange exchange u lt),
        setSymbol m u.s { i with validatedFirstUpdate := true }, none) := by
  have hstale : ¬(u.u ≤ L) := by omega
  rcases hok with hpass | htol
  · simp [BinanceBookChangeMapper.mapBookDepthUpdate, hlook, hlast, hstale, hvf, hpass]
  · subst htol
    by_cases hpass : (u.U ≤ L + 1 ∧ u.u ≥ L + 1) ∨ L = -1
    · simp [BinanceBookChangeMapper.mapBookDepthUpdate, hlook, hlast, hstale, hvf, hpass]
    · simp [BinanceBookChangeMapper.mapBookDepthUpdate, hlook, hlast, hstale, hvf, hpass]

/-- Equation: a fresh first update that fails the overlap test in strict mode
throws, with no state change and no emission. -/
theorem mapBookDepthUpdate_first_fail (exchange : String) (m : SymbolMap)
    (u : BinanceDepthData) (lt : Int) (i : LocalDepthInfo) (L : Int)
    (hlook : lookupSymbol m u.s = some i) (hlast : i.lastUpdateId = some L)
    (hfresh : L < u.u) (hvf : i.validatedFirstUpdate = false)
    (hfail : ¬(((u.U ≤ L + 1 ∧ u.u ≥ L + 1) ∨ L = -1))) :
    BinanceBookChangeMapper.mapBookDepthUpdate exchange false m u lt =
      (none, m, some (overlapErrorMessage exchange u L)) := by
  have hstale : ¬(u.u ≤ L) := by omega
  simp [BinanceBookChangeMapper.mapBookDepthUpdate, hlook, hlast, hstale, hvf, hfail]

/-- Characterization of the replay loop: when it completes without throwing,
it emits exactly the non-stale buffered updates, in arrival order, and the only
possible state change is the validated-first-update flag of the symbol. -/
theorem replay_characterization (exchange : String) (ig : Bool) (lt : Int)
    (us : List BinanceDepthData) :
    ∀ (m : SymbolMap) (sym : String) (i : LocalDepthInfo) (L : Int),
      (∀ u ∈ us, u.s = sym) →
      lookupSymbol m sym = some i →
      i.lastUpdateId = some L →
      (replayBufferedUpdates exchange ig us m lt).2.2 = none →
      (replayBufferedUpdates exchange ig us m lt).1 =
        (us.filter (fun u => decide (L < u.u))).map
          (fun u => depthUpdateBookChange exchange u lt) ∧
      ∃ b : Bool, (replayBufferedUpdates exchange ig us m lt).2.1 =
        setSymbol m sym { i with validatedFirstUpdate := b } := by
  induction us with
  | nil =>
    intro m sym i L hall hlook hlast herr
    exact ⟨rfl, ⟨i.validatedFirstUpdate, (setSymbol_lookup_self m sym i hlook).symm⟩⟩
  | cons u rest ih =>
    intro m sym i L hall hlook hlast herr
    have hu : u.s = sym := hall u (List.mem_cons_self _ _)
    have hrest : ∀ w ∈ rest, w.s = sym := fun w hw => hall w (List.mem_cons_of_mem _ hw)
    have hlooku : lookupSymbol m u.s = some i := by rw [hu]; exact hlook
    rcases Int.le_or_lt u.u L with hstale | hfresh
    · -- stale: skipped
      have heq := mapBookDepthUpdate_stale exchange ig m u lt i L hlooku hlast hstale
      have hfilter : decide (L < u.u) = false := by simp; omega
      simp only [replayBufferedUpdates, heq] at herr ⊢
      have := ih m sym i L hrest hlook hlast herr
      simp only [List.filter_cons, hfilter, Option.toList, List.nil_append]
      exact this
    · rcases hvf : i.validatedFirstUpdate with hfalse | htrue
      · -- first non-stale update: validated or tolerated, or strict throw
        by_cases hok : ((u.U ≤ L + 1 ∧ u.u ≥ L + 1) ∨ L = -1) ∨ ig = true
        · have heq := mapBookDepthUpdate_first_ok exchange ig m u lt i L hlooku hlast
            hfresh hvf hok
          rw [hu] at heq
          have hlook' : lookupSymbol (setSymbol m sym { i with validatedFirstUpdate := true })
              sym = some { i with validatedFirstUpdate := true } :=
            lookupSymbol_setSymbol_self _ _ _
          simp only [replayBufferedUpdates, heq] at herr ⊢
          have hrec := ih (setSymbol m sym { i with validatedFirstUpdate := true }) sym
            { i with validatedFirstUpdate := true } L hrest hlook' hlast herr
          have hfilter : decide (L < u.u) = true := by simp; omega
          simp only [List.filter_cons, hfilter, if_pos, Option.toList]
          constructor
          · rw [List.map_cons]
            simp only [List.cons_append, List.nil_append]
            rw [hrec.1]
          · obtain ⟨b, hb⟩ := hrec.2
            refine ⟨b, ?_⟩
            rw [hb, setSymbol_setSymbol]
        · -- strict failure: contradicts the no-throw hypothesis
          have hig : ig = false := by
            cases ig
            · rfl
            · exact absurd (Or.inr rfl) hok
          have hfail : ¬(((u.U ≤ L + 1 ∧ u.u ≥ L + 1) ∨ L = -1)) := by
            intro hc
            exact hok (Or.inl hc)
          subst hig
          have heq := mapBookDepthUpdate_first_fail exchange m u lt i L hlooku hlast
            hfresh hvf hfail
          simp only [replayBufferedUpdates, heq] at herr
          exact Option.noConfusion herr
      · -- already validated: emitted, state unchanged
        have heq := mapBookDepthUpdate_validated exchange ig m u lt i L hlooku hlast
          hfresh hvf
        simp only [replayBufferedUpdates, heq] at herr ⊢
        have hrec := ih m sym i L hrest hlook hlast herr
        have hfilter : decide (L < u.u) = true := by simp; omega
        simp only [List.filter_cons, hfilter, if_pos, Option.toList]
        constructor
        · rw [List.map_cons]
          simp only [List.cons_append, List.nil_append]
          rw [hrec.1]
        · exact hrec.2

/-- Unfolding of the snapshot branch of `map` when the replay completes. -/
theorem map_snapshot_eq
    (exchange : String) (ig : Bool) (m : SymbolMap) (msg : DepthMessage)
    (d : BinanceDepthSnapshotData) (lt : Int) (sym : String)
    (ib : CircularBuffer BinanceDepthData) (ilu : Option Int) (ivf : Bool)
    (hsym : symbolFromStream msg.stream = sym)
    (hdata : msg.data = .snapshot d)
    (hlook : lookupSymbol m sym = some ⟨ib, false, ilu, ivf⟩)
    (evs : List BookChange) (m2 : SymbolMap) (info2 : LocalDepthInfo)
    (hr : replayBufferedUpdates exchange ig ib.items
      (setSymbol m sym ⟨ib, true, some d.lastUpdateId, ivf⟩) lt = (evs, m2, none))
    (hl2 : lookupSymbol m2 sym = some info2) :
    BinanceBookChangeMapper.map exchange ig m msg lt =
      { events := { symbol := sym, exchange := exchange, isSnapshot := true
                    bids := d.bids.map mapBookLevel, asks := d.asks.map mapBookLevel
                    timestamp := lt, localTimestamp := lt } :: evs
        state := setSymbol m2 sym { info2 with bufferedUpdates := info2.bufferedUpdates.clear }
        error := none } := by
  simp only [BinanceBookChangeMapper.map, hsym, getOrCreateInfo, hlook, hdata,
    Bool.false_eq_true, if_false, hr, hl2]

/-- Unfolding of the snapshot branch of `map` when the replay throws. -/
theorem map_snapshot_error
    (exchange : String) (ig : Bool) (m : SymbolMap) (msg : DepthMessage)
    (d : BinanceDepthSnapshotData) (lt : Int) (sym : String)
    (ib : CircularBuffer BinanceDepthData) (ilu : Option Int) (ivf : Bool)
    (hsym : symbolFromStream msg.stream = sym)
    (hdata : msg.data = .snapshot d)
    (hlook : lookupSymbol m sym = some ⟨ib, false, ilu, ivf⟩)
    (evs : List BookChange) (m2 : SymbolMap) (e : String)
    (hr : replayBufferedUpdates exchange ig ib.items
      (setSymbol m sym ⟨ib, true, some d.lastUpdateId, ivf⟩) lt = (evs, m2, some e)) :
    (BinanceBookChangeMapper.map exchange ig m msg lt).error = some e := by
  simp only [BinanceBookChangeMapper.map, hsym, getOrCreateInfo, hlook, hdata,
    Bool.false_eq_true, if_false, hr]

/-- C3: processing the first snapshot for a symbol with buffered updates — when
no strict-mode reconciliation throw occurs — emits one `isSnapshot = true`
event carrying every snapshot level, followed by the non-stale buffered updates
replayed in arrival order as `isSnapshot = false` events (at most as many as
were buffered); afterwards the buffer is empty and `lastUpdateId` is the
snapshot's sequence id. -/
theorem snapshot_replay
    (exchange : String) (ig : Bool) (m : SymbolMap) (msg : DepthMessage)
    (d : BinanceDepthSnapshotData) (i : LocalDepthInfo) (lt : Int) (sym : String)
    (hsym : symbolFromStream msg.stream = sym)
    (hdata : msg.data = .snapshot d)
    (hlook : lookupSymbol m sym = some i)
    (hproc : i.snapshotProcessed = false)
    (hall : ∀ u ∈ i.bufferedUpdates.items, u.s = sym)
    (herr : (BinanceBookChangeMapper.map exchange ig m msg lt).error = none) :
    (BinanceBookChangeMapper.map exchange ig m msg lt).events =
      { symbol := sym, exchange := exchange, isSnapshot := true
        bids := d.bids.map mapBookLevel, asks := d.asks.map mapBookLevel
        timestamp := lt, localTimestamp := lt } ::
        ((i.bufferedUpdates.items.filter (fun u => decide (d.lastUpdateId < u.u))).map
          (fun u => depthUpdateBookChange exchange u lt)) ∧
    (BinanceBookChangeMapper.map exchange ig m msg lt).events.tail.length ≤
      i.bufferedUpdates.items.length ∧
    (∀ e ∈ (BinanceBookChangeMapper.map exchange ig m msg lt).events.tail,
      e.isSnapshot = false) ∧
    (∃ b : Bool, lookupSymbol (BinanceBookChangeMapper.map exchange ig m msg lt).state sym =
      some { bufferedUpdates := i.bufferedUpdates.clear, snapshotProcessed := true
             lastUpdateId := some d.lastUpdateId, validatedFirstUpdate := b }) ∧
    (i.bufferedUpdates.clear).items = [] := by
  obtain ⟨ib, isp, ilu, ivf⟩ := i
  simp only at hproc hall
  subst hproc
  have hchar := replay_characterization exchange ig lt ib.items
    (setSymbol m sym ⟨ib, true, some d.lastUpdateId, ivf⟩) sym
    ⟨ib, true, some d.lastUpdateId, ivf⟩ d.lastUpdateId hall
    (lookupSymbol_setSymbol_self _ _ _) rfl
  rcases hr : replayBufferedUpdates exchange ig ib.items
      (setSymbol m sym ⟨ib, true, some d.lastUpdateId, ivf⟩) lt with ⟨evs, m2, err⟩
  rw [hr] at hchar
  cases err with
  | some e =>
    rw [map_snapshot_error exchange ig m msg d lt sym ib ilu ivf hsym hdata hlook
      evs m2 e hr] at herr
    exact Option.noConfusion herr
  | none =>
    obtain ⟨hevs, b, hm2⟩ := hchar rfl
    simp only at hevs hm2
    have hlook2 : lookupSymbol m2 sym = some ⟨ib, true, some d.lastUpdateId, b⟩ := by
      rw [hm2]
      exact lookupSymbol_setSymbol_self _ _ _
    rw [map_snapshot_eq exchange ig m msg d lt sym ib ilu ivf hsym hdata hlook
      evs m2 ⟨ib, true, some d.lastUpdateId, b⟩ hr hlook2]
    refine ⟨?_, ?_, ?_, ?_, ?_⟩
    · simp only [List.cons.injEq, true_and]
      exact hevs
    · simp only [List.tail_cons]
      rw [hevs]
      simp only [List.length_map]
      exact List.length_filter_le _ _
    · simp only [List.tail_cons]
      rw [hevs]
      intro e he
      simp only [List.mem_map] at he
      obtain ⟨u, _, hue⟩ := he
      rw [← hue]
      rfl
    · exact ⟨b, lookupSymbol_setSymbol_self _ _ _⟩
    · rfl

/-- Concrete buffered update used by the C3 witness. -/
def c3u1 : BinanceDepthData := ⟨1, "BTCUSDT", 101, 105, [], []⟩

/-- Concrete pre-snapshot buffer holding one update. -/
def c3cb : CircularBuffer BinanceDepthData := ⟨[c3u1], 1, 200⟩

/-- Concrete pre-snapshot per-symbol record. -/
def c3info : LocalDepthInfo := ⟨c3cb, false, none, false⟩

/-- Concrete mapper state before the snapshot arrives. -/
def c3m : SymbolMap := [("BTCUSDT", c3info)]

/-- Concrete snapshot message. -/
def c3msg : DepthMessage := ⟨"btcusdt@depth", .snapshot ⟨100, [(9, 1)], [(11, 2)]⟩⟩

/-- C3 witness: one buffered non-stale update, then the snapshot; the run emits
the snapshot event plus the replayed update and clears the buffer. -/
theorem snapshot_replay_witness :
    (BinanceBookChangeMapper.map "binance" false c3m c3msg 7).events =
      { symbol := "BTCUSDT", exchange := "binance", isSnapshot := true
        bids := [((9 : Int), (1 : Int))].map mapBookLevel
        asks := [((11 : Int), (2 : Int))].map mapBookLevel
        timestamp := 7, localTimestamp := 7 } ::
        ((c3info.bufferedUpdates.items.filter (fun u => decide ((100 : Int) < u.u))).map
          (fun u => depthUpdateBookChange "binance" u 7)) ∧
    (BinanceBookChangeMapper.map "binance" false c3m c3msg 7).events.tail.length ≤
      c3info.bufferedUpdates.items.length ∧
    (∀ e ∈ (BinanceBookChangeMapper.map "binance" false c3m c3msg 7).events.tail,
      e.isSnapshot = false) ∧
    (∃ b : Bool,
      lookupSymbol (BinanceBookChangeMapper.map "binance" false c3m c3msg 7).state "BTCUSDT" =
        some { bufferedUpdates := c3info.bufferedUpdates.clear, snapshotProcessed := true
               lastUpdateId := some 100, validatedFirstUpdate := b }) ∧
    (c3info.bufferedUpdates.clear).items = [] :=
  snapshot_replay "binance" false c3m c3msg ⟨100, [(9, 1)], [(11, 2)]⟩ c3info 7 "BTCUSDT"
    (by decide) rfl rfl rfl (by decide) (by rfl)
